import Mathlib

/-!
Shallow embedding of the CRM backend (GraphQL mutations in `crm/schema.py`,
scheduled report task in `crm/tasks.py`) and proofs about the behaviour of
the low-stock replenishment mutation, the customer-creation mutations, the
product / order stock handling, and the weekly report job.

The record store is modelled as a list of rows; Django ORM operations used
by the source are given their standard relational semantics:
`filter(stock__lt=10)` is a list filter, `update(stock=F('stock')+k)` is a
single atomic relative update on the rows matching the filter, `count()` is
the length of the selection, and `filter(id__in=ids)` is a filter by id
membership.  Storage-layer failures are modelled by explicit optional
failure parameters at each point where the source talks to storage.
-/

/-- Row of the product table (`crm.models.Product`): id (primary key),
name, price (decimal, modelled exactly as a rational) and integer stock. -/
structure Product where
  id : Nat
  name : String
  price : Rat
  stock : Int
deriving Repr, DecidableEq

/-- Result object of the `UpdateLowStockProducts` mutation
(`crm/schema.py` lines 74-78): success flag, message, count of updated
rows and list of updated product rows. -/
structure ReplenishResult where
  success : Bool
  message : String
  updatedCount : Nat
  updatedProducts : List Product
deriving Repr, DecidableEq

/-- Selection predicate of the mutation: `stock__lt=10` (line 89). -/
def isLowStock (p : Product) : Bool := decide (p.stock < 10)

/-- Effect of `update(stock=F('stock') + increment_by)` on one row matching
the filter: the stock field is incremented in place, all other fields kept.
A row not matching `stock < 10` is untouched. -/
def incrementStock (k : Int) (p : Product) : Product :=
  if p.stock < 10 then { p with stock := p.stock + k } else p

/-- Embedding of `UpdateLowStockProducts.mutate` (`crm/schema.py` lines
80-124).  `selectFail`, `updateFail` and `refetchFail` model a storage
exception raised, respectively, by the selection / count (lines 89-90), by
the bulk `update` statement (lines 104-106), and by the post-update
re-fetch `filter(id__in=product_ids)` (line 109).  A raised exception is
caught by the `except` clause (lines 118-124) and converted into an error
result.  The returned pair is (store after the call, mutation result).
The source wraps none of this in a transaction: the bulk update commits
before the re-fetch runs, so a failure at the re-fetch leaves the
increments in place. -/
def updateLowStockProducts (store : List Product) (incrementBy : Int)
    (selectFail updateFail refetchFail : Option String) :
    List Product × ReplenishResult :=
  match selectFail with
  | some e =>
      (store, ⟨false, "Error updating low-stock products: " ++ e, 0, []⟩)
  | none =>
      let lowStockProducts := store.filter isLowStock
      let countBefore := lowStockProducts.length
      if countBefore = 0 then
        (store, ⟨true, "No products with stock less than 10 found", 0, []⟩)
      else
        let productIds := lowStockProducts.map Product.id
        match updateFail with
        | some e =>
            (store, ⟨false, "Error updating low-stock products: " ++ e, 0, []⟩)
        | none =>
            let newStore := store.map (incrementStock incrementBy)
            match refetchFail with
            | some e =>
                (newStore,
                 ⟨false, "Error updating low-stock products: " ++ e, 0, []⟩)
            | none =>
                let updatedProducts :=
                  newStore.filter (fun p => decide (p.id ∈ productIds))
                (newStore,
                 ⟨true,
                  "Successfully updated " ++ toString countBefore ++
                    " low-stock products",
                  countBefore, updatedProducts⟩)

/-- The store after two successive invocations of the mutation with the
same increment and no storage failure (`crm/cron.py` invokes the mutation
on a 12-hour timer with the default increment). -/
def afterTwoRuns (store : List Product) (k : Int) : List Product :=
  (updateLowStockProducts
    (updateLowStockProducts store k none none none).1 k none none none).1

lemma incrementStock_id (k : Int) (p : Product) :
    (incrementStock k p).id = p.id := by
  unfold incrementStock; split <;> rfl

lemma incrementStock_name (k : Int) (p : Product) :
    (incrementStock k p).name = p.name := by
  unfold incrementStock; split <;> rfl

lemma incrementStock_price (k : Int) (p : Product) :
    (incrementStock k p).price = p.price := by
  unfold incrementStock; split <;> rfl

lemma incrementStock_of_high (k : Int) (p : Product) (h : 10 ≤ p.stock) :
    incrementStock k p = p := by
  unfold incrementStock
  rw [if_neg (by omega)]

/-- The store returned by the mutation is either the input store (early
return or failure before the update commits) or the input store with the
single bulk update applied. -/
lemma updateLowStock_fst_cases (store : List Product) (k : Int)
    (sf uf rf : Option String) :
    (updateLowStockProducts store k sf uf rf).1 = store ∨
      (updateLowStockProducts store k sf uf rf).1 =
        store.map (incrementStock k) := by
  unfold updateLowStockProducts
  cases sf with
  | some e => exact Or.inl rfl
  | none =>
      by_cases h : (store.filter isLowStock).length = 0
      · simp only [h, if_pos rfl]
        exact Or.inl rfl
      · simp only [if_neg h]
        cases uf with
        | some e => exact Or.inl rfl
        | none =>
            cases rf with
            | some e => exact Or.inr rfl
            | none => exact Or.inr rfl

lemma updateLowStock_fst_length (store : List Product) (k : Int)
    (sf uf rf : Option String) :
    (updateLowStockProducts store k sf uf rf).1.length = store.length := by
  rcases updateLowStock_fst_cases store k sf uf rf with h | h <;>
    simp [h]

/-- Row of the customer table (`crm.models.Customer`): name, email and
optional phone, as used by the creation mutations. -/
structure Customer where
  name : String
  email : String
  phone : Option String
deriving Repr, DecidableEq

/-- Input object `CustomerInput` (`crm/schema.py` lines 242-245): required
name and email, optional phone. -/
structure CustomerInput where
  name : String
  email : String
  phone : Option String
deriving Repr, DecidableEq

/-- Error entry `ErrorType` (`crm/schema.py` lines 263-265). -/
structure ErrEntry where
  field : String
  message : String
deriving Repr, DecidableEq

/-- Matcher for exactly `n` decimal digits (`\d` repeated), returning the
remaining characters on success. -/
def eatExactDigits : Nat → List Char → Option (List Char)
  | 0, cs => some cs
  | _ + 1, [] => none
  | n + 1, c :: cs => if c.isDigit then eatExactDigits n cs else none

/-- Matcher for the optional separator `[- ]?` of the phone pattern:
consumes one dash or space when present. -/
def eatOptSep : List Char → List Char
  | [] => []
  | c :: cs => if c = '-' ∨ c = ' ' then cs else c :: cs

/-- Matcher for the mandatory body `\d{3}[- ]?\d{3}[- ]?\d{4}$` of the
phone pattern (the regex `$` also accepts one trailing newline, as in the
source's `re` semantics). -/
def phoneBodyMatch (cs : List Char) : Bool :=
  match eatExactDigits 3 cs with
  | none => false
  | some cs1 =>
    match eatExactDigits 3 (eatOptSep cs1) with
    | none => false
    | some cs2 =>
      match eatExactDigits 4 (eatOptSep cs2) with
      | none => false
      | some rest => rest.isEmpty || rest = ['\n']

/-- Matcher for the country-code group `\+\d{1,3}[- ]?` after the leading
plus sign, trying a fixed digit count `n`, then the body. -/
def phoneCountryMatch (n : Nat) (cs : List Char) : Bool :=
  match eatExactDigits n cs with
  | none => false
  | some cs1 => phoneBodyMatch (eatOptSep cs1)

/-- Embedding of the regex `^(\+\d{1,3}[- ]?)?\d{3}[- ]?\d{3}[- ]?\d{4}$`
used by `CreateCustomer.validate_phone` (`crm/schema.py` line 288); the
backtracking over `\d{1,3}` is the disjunction over the three counts. -/
def phonePatternMatch (s : String) : Bool :=
  match s.data with
  | '+' :: rest =>
      phoneCountryMatch 3 rest || phoneCountryMatch 2 rest ||
        phoneCountryMatch 1 rest
  | cs => phoneBodyMatch cs

/-- Embedding of `CreateCustomer.validate_phone` (`crm/schema.py` lines
284-289): a falsy phone (absent or empty) is accepted; otherwise the
pattern must match. -/
def validate_phone (phone : Option String) : Bool :=
  match phone with
  | none => true
  | some s => if s = "" then true else phonePatternMatch s

/-- Truthiness of the phone argument as Python sees it (`if input.phone`):
present and non-empty. -/
def phoneTruthy (phone : Option String) : Bool :=
  match phone with
  | none => false
  | some s => !(s = "")

/-- Stored phone value: `input.phone if input.phone else None`
(`crm/schema.py` line 319). -/
def storedPhone (phone : Option String) : Option String :=
  if phoneTruthy phone then phone else none

/-- Embedding of Python's `str.strip()` as used on the input name: drop
leading and trailing whitespace characters (list-based so that it reduces
in the kernel; the inputs at issue are ASCII). -/
def pyStrip (s : String) : String :=
  String.mk
    (((s.data.dropWhile Char.isWhitespace).reverse.dropWhile
        Char.isWhitespace).reverse)

/-- Embedding of Python's `str.lower()` as used on the input email:
lower-case each character (list-based so that it reduces in the kernel). -/
def pyLower (s : String) : String :=
  String.mk (s.data.map Char.toLower)

/-- Customer row created from a validated input (`crm/schema.py` lines
316-320 and 387-391): the name is stripped of surrounding whitespace and
the email lower-cased before storing. -/
def mkCustomer (input : CustomerInput) : Customer :=
  { name := pyStrip input.name
    email := pyLower input.email
    phone := storedPhone input.phone }

/-- Embedding of `CreateCustomer.mutate` (`crm/schema.py` lines 291-329).
`validEmail` abstracts the external `django.core.validators.validate_email`
check, which is framework code outside this repository.  All validation
errors are collected into one list, in source order.
Returns (store after the call, returned customer, error list) through
`createCustomer` below. -/
def createCustomerErrors (validEmail : String → Bool)
    (store : List Customer) (input : CustomerInput) : List ErrEntry :=
  (if pyStrip input.name = "" then [ErrEntry.mk "name" "Name is required"] else []) ++
  (if validEmail input.email then [] else
    [ErrEntry.mk "email" "Invalid email format"]) ++
  (if store.any (fun c => c.email == input.email) then
    [ErrEntry.mk "email" "Email already exists"] else []) ++
  (if phoneTruthy input.phone && !validate_phone input.phone then
    [ErrEntry.mk "phone" "Phone must be in format: +1234567890 or 123-456-7890"]
   else [])

/-- Branching part of `CreateCustomer.mutate`: with a non-empty error list
nothing is written and only the errors are returned (lines 312-313);
otherwise the normalized customer is stored and returned (lines 315-325). -/
def createCustomer (validEmail : String → Bool) (store : List Customer)
    (input : CustomerInput) : List Customer × Option Customer × List ErrEntry :=
  if createCustomerErrors validEmail store input = [] then
    (store ++ [mkCustomer input], some (mkCustomer input), [])
  else
    (store, none, createCustomerErrors validEmail store input)

/-- State threaded through the loop of `BulkCreateCustomers.mutate`: the
customer table (which, inside the surrounding transaction, already shows
rows created earlier in the batch), the list of customers created by this
batch, and the accumulated error entries. -/
structure BulkState where
  store : List Customer
  created : List Customer
  errors : List ErrEntry
deriving Repr, DecidableEq

/-- One iteration of the loop of `BulkCreateCustomers.mutate`
(`crm/schema.py` lines 344-398) on the input at position `idx`: each
failed check appends one error entry and skips the row (`continue`);
otherwise the normalized customer is created. -/
def bulkStep (validEmail : String → Bool) (st : BulkState) (idx : Nat)
    (input : CustomerInput) : BulkState :=
  if pyStrip input.name = "" then
    { st with errors := st.errors ++
        [ErrEntry.mk ("inputs[" ++ toString idx ++ "].name") "Name is required"] }
  else if !validEmail input.email then
    { st with errors := st.errors ++
        [ErrEntry.mk ("inputs[" ++ toString idx ++ "].email") "Invalid email format"] }
  else if st.store.any (fun c => c.email == input.email) then
    { st with errors := st.errors ++
        [ErrEntry.mk ("inputs[" ++ toString idx ++ "].email") "Email already exists"] }
  else if st.created.any (fun c => c.email == input.email) then
    { st with errors := st.errors ++
        [ErrEntry.mk ("inputs[" ++ toString idx ++ "].email") "Duplicate email in batch"] }
  else if phoneTruthy input.phone && !validate_phone input.phone then
    { st with errors := st.errors ++
        [ErrEntry.mk ("inputs[" ++ toString idx ++ "].phone") "Invalid phone format"] }
  else
    let c := mkCustomer input
    { store := st.store ++ [c], created := st.created ++ [c],
      errors := st.errors }

/-- The enumerated loop of `BulkCreateCustomers.mutate`. -/
def bulkCreateLoop (validEmail : String → Bool) (st : BulkState) (idx : Nat) :
    List CustomerInput → BulkState
  | [] => st
  | input :: rest =>
      bulkCreateLoop validEmail (bulkStep validEmail st idx input) (idx + 1) rest

/-- Embedding of `BulkCreateCustomers.mutate` (`crm/schema.py` lines
338-405): processes the batch in order starting from index 0 with no
customers created yet.  The result's `customers` list is `.created` and
its `errors` list is `.errors`. -/
def bulkCreateCustomers (validEmail : String → Bool) (store : List Customer)
    (inputs : List CustomerInput) : BulkState :=
  bulkCreateLoop validEmail ⟨store, [], []⟩ 0 inputs

/-- Validity of one batch input with respect to a customer table: the
checks of the loop body all pass (non-blank name, valid email, email not
present in the table, acceptable phone). -/
def cleanInput (validEmail : String → Bool) (store : List Customer)
    (input : CustomerInput) : Bool :=
  (!(pyStrip input.name = "")) && validEmail input.email &&
    (!(store.any (fun c => c.email == input.email))) &&
    (!(phoneTruthy input.phone && !validate_phone input.phone))

/-- Validity of a batch prefix: each input is clean with respect to the
table as it stands when that input is processed (earlier creations
included, since the transaction makes them visible). -/
def cleanList (validEmail : String → Bool) (store : List Customer) :
    List CustomerInput → Bool
  | [] => true
  | input :: rest =>
      cleanInput validEmail store input &&
        cleanList validEmail (store ++ [mkCustomer input]) rest

/-- Input object `ProductInput` (`crm/schema.py` lines 248-251): required
name and decimal price, optional integer stock. -/
structure ProductInput where
  name : String
  price : Rat
  stock : Option Int
deriving Repr, DecidableEq

/-- Validation part of `CreateProduct.mutate` (`crm/schema.py` lines
415-426): rejects a blank name, a non-positive price and a negative
requested stock, collecting the error entries in source order. -/
def createProductErrors (input : ProductInput) : List ErrEntry :=
  (if pyStrip input.name = "" then
    [ErrEntry.mk "name" "Product name is required"] else []) ++
  (if input.price ≤ 0 then
    [ErrEntry.mk "price" "Price must be greater than 0"] else []) ++
  (match input.stock with
   | some s => if s < 0 then [ErrEntry.mk "stock" "Stock cannot be negative"] else []
   | none => [])

/-- Branching part of `CreateProduct.mutate`: with errors nothing is
written (lines 428-429), otherwise the product is created with the given
primary key, stripped name and a stock defaulting to 0 (lines 431-437). -/
def createProduct (store : List Product) (pk : Nat) (input : ProductInput) :
    List Product × Option Product × List ErrEntry :=
  if createProductErrors input = [] then
    (store ++
      [({ id := pk
          name := pyStrip input.name
          price := input.price
          stock := (input.stock).getD 0 } : Product)],
     some ({ id := pk
             name := pyStrip input.name
             price := input.price
             stock := (input.stock).getD 0 } : Product),
     [])
  else
    (store, none, createProductErrors input)

/-- Effect of `product.save()` after the in-memory decrement: the table
row with the product's id takes the written stock value. -/
def saveStock (store : List Product) (pk : Nat) (s : Int) : List Product :=
  store.map (fun q => if q.id = pk then { q with stock := s } else q)

/-- Embedding of the stock-decrement loop of `CreateOrder.mutate`
(`crm/schema.py` lines 509-512): for each fetched product snapshot with
positive stock, write back its snapshot stock minus one; snapshots with
stock 0 are left alone. -/
def createOrderDecrementStock (store : List Product)
    (orderProducts : List Product) : List Product :=
  orderProducts.foldl
    (fun st p => if p.stock > 0 then saveStock st p.id (p.stock - 1) else st)
    store

/-- Run record of the weekly report task: the lines appended to
`/tmp/crm_report_log.txt` and whether the task re-raised through its
retry mechanism. -/
structure ReportRun where
  logLines : List String
  raisedRetry : Bool
deriving Repr, DecidableEq

/-- Rendering of a non-negative money amount held in cents with two
decimal places, matching the source's fixed-two-decimals formatting of
the revenue total. -/
def fmtCents (n : Nat) : String :=
  toString (n / 100) ++ "." ++ (if n % 100 < 10 then "0" else "") ++
    toString (n % 100)

/-- Embedding of `generate_crm_report` (`crm/tasks.py` lines 14-111).
`fetch` models the GraphQL round trip: on success it yields the customer
count and the orders' total amounts (decimal amounts modelled in cents, a
missing amount as `none`, which the source skips, adding nothing).  On
success exactly one report line is appended and the task returns normally;
on any exception the error line is appended and the task re-raises via
`self.retry(exc=e, countdown=300)` (line 111), modelled by the
`raisedRetry` flag. -/
def generate_crm_report (timestamp : String)
    (fetch : Except String (Nat × List (Option Nat))) : ReportRun :=
  match fetch with
  | Except.ok (numCustomers, orderAmounts) =>
      let revenue := orderAmounts.foldl (fun acc a => acc + a.getD 0) 0
      { logLines :=
          [timestamp ++ " - Report: " ++ toString numCustomers ++
            " customers, " ++ toString orderAmounts.length ++ " orders, " ++
            fmtCents revenue ++ " revenue"]
        raisedRetry := false }
  | Except.error e =>
      { logLines := [timestamp ++ " - ERROR generating CRM report: " ++ e]
        raisedRetry := true }

/-!  Reduction lemmas for the replenishment mutation. -/

lemma updateLowStock_success_eq (store : List Product) (k : Int)
    (hne : store.filter isLowStock ≠ []) :
    updateLowStockProducts store k none none none =
      (store.map (incrementStock k),
       ⟨true,
        "Successfully updated " ++ toString (store.filter isLowStock).length ++
          " low-stock products",
        (store.filter isLowStock).length,
        (store.map (incrementStock k)).filter
          (fun p => decide (p.id ∈ (store.filter isLowStock).map Product.id))⟩) := by
  have h0 : ¬ (store.filter isLowStock).length = 0 := by
    simpa [List.length_eq_zero] using hne
  unfold updateLowStockProducts
  rw [if_neg h0]

lemma refetch_selected (store : List Product) (k : Int)
    (hnd : (store.map Product.id).Nodup) :
    (store.map (incrementStock k)).filter
        (fun p => decide (p.id ∈ (store.filter isLowStock).map Product.id))
      = (store.filter isLowStock).map (incrementStock k) := by
  rw [List.filter_map]
  congr 1
  apply List.filter_congr
  intro p hp
  simp only [Function.comp_apply, incrementStock_id]
  by_cases hlow : p.stock < 10
  · have hpf : p ∈ store.filter isLowStock :=
      List.mem_filter.mpr ⟨hp, by simp [isLowStock, hlow]⟩
    have hid : p.id ∈ (store.filter isLowStock).map Product.id :=
      List.mem_map_of_mem _ hpf
    simp [isLowStock, hlow, hid]
  · have hid : p.id ∉ (store.filter isLowStock).map Product.id := by
      intro hmem
      rcases List.mem_map.mp hmem with ⟨q, hq, hqid⟩
      have hqs : q ∈ store := (List.mem_filter.mp hq).1
      have hql : q.stock < 10 := by
        simpa [isLowStock] using (List.mem_filter.mp hq).2
      have hqp : q = p := List.inj_on_of_nodup_map hnd hqs hp hqid
      rw [hqp] at hql
      exact hlow hql
    simp [isLowStock, hlow, hid]

/-- C1: for every increment k > 0, when the low-stock selection is
non-empty (and ids are unique, as primary keys are), the mutation returns
success with the message "Successfully updated N low-stock products",
updatedCount N = the number of selected rows, updatedProducts = the
post-mutation snapshots of exactly the selected rows, and each row's
post-operation stock is its pre-operation stock plus k when it was
selected (incremented exactly once) and unchanged otherwise. -/
theorem replenish_success_spec (store : List Product) (k : Int)
    (_hk : 0 < k) (hnd : (store.map Product.id).Nodup)
    (hne : store.filter isLowStock ≠ []) :
    (updateLowStockProducts store k none none none).2.success = true ∧
    (updateLowStockProducts store k none none none).2.message =
      "Successfully updated " ++ toString (store.filter isLowStock).length ++
        " low-stock products" ∧
    (updateLowStockProducts store k none none none).2.updatedCount =
      (store.filter isLowStock).length ∧
    (updateLowStockProducts store k none none none).2.updatedProducts =
      (store.filter isLowStock).map (incrementStock k) ∧
    (∀ i (hi : i < store.length)
        (hi' : i < (updateLowStockProducts store k none none none).1.length),
      ((updateLowStockProducts store k none none none).1.get ⟨i, hi'⟩).stock =
        if (store.get ⟨i, hi⟩).stock < 10 then (store.get ⟨i, hi⟩).stock + k
        else (store.get ⟨i, hi⟩).stock) := by
  rw [updateLowStock_success_eq store k hne]
  refine ⟨rfl, rfl, rfl, refetch_selected store k hnd, ?_⟩
  intro i hi hi'
  simp only [List.get_eq_getElem, List.getElem_map, incrementStock]
  split <;> rfl

theorem replenish_success_witness :
    ((0 : Int) < 10 ∧
      (([(⟨1, "A", 5, 5⟩ : Product), ⟨2, "B", 5, 12⟩]).map Product.id).Nodup ∧
      ([(⟨1, "A", 5, 5⟩ : Product), ⟨2, "B", 5, 12⟩]).filter isLowStock ≠ []) ∧
    (updateLowStockProducts [⟨1, "A", 5, 5⟩, ⟨2, "B", 5, 12⟩] 10
        none none none).2.updatedProducts = [⟨1, "A", 5, 15⟩] := by
  have h := replenish_success_spec [⟨1, "A", 5, 5⟩, ⟨2, "B", 5, 12⟩] 10
    (by decide) (by decide) (by decide)
  refine ⟨⟨by decide, by decide, by decide⟩, ?_⟩
  rw [h.2.2.2.1]
  rfl

/-- C2: when no row has stock below 10, the mutation returns success with
the message "No products with stock less than 10 found", count 0 and an
empty product list, and the store is not written (regardless of whether a
later storage step would have failed). -/
theorem replenish_empty_selection (store : List Product) (k : Int)
    (uf rf : Option String) (h : store.filter isLowStock = []) :
    updateLowStockProducts store k none uf rf =
      (store, ⟨true, "No products with stock less than 10 found", 0, []⟩) := by
  unfold updateLowStockProducts
  simp [h]

theorem replenish_empty_selection_witness :
    ([(⟨1, "A", 5, 12⟩ : Product)]).filter isLowStock = [] ∧
    updateLowStockProducts [⟨1, "A", 5, 12⟩] 10 none none none =
      ([⟨1, "A", 5, 12⟩],
       ⟨true, "No products with stock less than 10 found", 0, []⟩) := by
  refine ⟨by decide, ?_⟩
  exact replenish_empty_selection [⟨1, "A", 5, 12⟩] 10 none none (by decide)

/-- C3: under every outcome (success, empty selection, or a storage
failure at any step), the mutation never creates or deletes rows, never
touches a row whose stock was at least 10 at selection time, and changes
no field other than stock of the selected rows. -/
theorem replenish_frame (store : List Product) (k : Int)
    (sf uf rf : Option String) :
    (updateLowStockProducts store k sf uf rf).1.length = store.length ∧
    ∀ i (hi : i < store.length)
      (hi' : i < (updateLowStockProducts store k sf uf rf).1.length),
      (((updateLowStockProducts store k sf uf rf).1.get ⟨i, hi'⟩).id =
          (store.get ⟨i, hi⟩).id) ∧
      (((updateLowStockProducts store k sf uf rf).1.get ⟨i, hi'⟩).name =
          (store.get ⟨i, hi⟩).name) ∧
      (((updateLowStockProducts store k sf uf rf).1.get ⟨i, hi'⟩).price =
          (store.get ⟨i, hi⟩).price) ∧
      (10 ≤ (store.get ⟨i, hi⟩).stock →
        (updateLowStockProducts store k sf uf rf).1.get ⟨i, hi'⟩ =
          store.get ⟨i, hi⟩) := by
  rcases updateLowStock_fst_cases store k sf uf rf with h | h
  · rw [h]
    exact ⟨rfl, fun i hi hi' => ⟨rfl, rfl, rfl, fun _ => rfl⟩⟩
  · rw [h]
    refine ⟨by simp, ?_⟩
    intro i hi hi'
    simp only [List.get_eq_getElem, List.getElem_map]
    exact ⟨incrementStock_id k _, incrementStock_name k _,
      incrementStock_price k _, fun hs => incrementStock_of_high k _ hs⟩

theorem replenish_frame_witness :
    (0 : Nat) < 1 ∧
    (updateLowStockProducts [(⟨1, "A", 5, 12⟩ : Product)] 3
        none none none).1.get ⟨0, by decide⟩ = ⟨1, "A", 5, 12⟩ := by
  refine ⟨by decide, ?_⟩
  have h := (replenish_frame [⟨1, "A", 5, 12⟩] 3 none none none).2 0
    (by decide) (by decide)
  exact h.2.2.2 (by decide)

/-- C4: a storage-layer error raised at any step — selection, the bulk
update, or the post-update re-fetch — is caught and converted into the
structured result with success = false, the message
"Error updating low-stock products: " followed by the detail, count 0 and
an empty product list; the mutation is a total function, it never lets the
exception escape. -/
theorem replenish_error_result (store : List Product) (k : Int) (e : String)
    (uf rf : Option String) :
    (updateLowStockProducts store k (some e) uf rf).2 =
      ⟨false, "Error updating low-stock products: " ++ e, 0, []⟩ ∧
    (store.filter isLowStock ≠ [] →
      (updateLowStockProducts store k none (some e) rf).2 =
        ⟨false, "Error updating low-stock products: " ++ e, 0, []⟩) ∧
    (store.filter isLowStock ≠ [] →
      (updateLowStockProducts store k none none (some e)).2 =
        ⟨false, "Error updating low-stock products: " ++ e, 0, []⟩) := by
  refine ⟨rfl, ?_, ?_⟩ <;> intro hne <;>
    have h0 : ¬ (store.filter isLowStock).length = 0 := by
      simpa [List.length_eq_zero] using hne
  · unfold updateLowStockProducts
    rw [if_neg h0]
  · unfold updateLowStockProducts
    rw [if_neg h0]

theorem replenish_error_result_witness :
    ([(⟨1, "A", 5, 3⟩ : Product)]).filter isLowStock ≠ [] ∧
    (updateLowStockProducts [⟨1, "A", 5, 3⟩] 10 none (some "db down")
        none).2 =
      ⟨false, "Error updating low-stock products: db down", 0, []⟩ := by
  have h := replenish_error_result [⟨1, "A", 5, 3⟩] 10 "db down" none none
  exact ⟨by decide, h.2.1 (by decide)⟩

/-- C5 (failing input): the mutation wraps no transaction around the
selection, update and re-fetch.  On a one-row store with stock 5 and the
default increment 10, a storage error raised by the post-update re-fetch
yields success = false and updatedCount = 0, yet the committed bulk update
has already raised the row's stock to 15: a failing execution is visible
with the increment applied, contradicting all-or-nothing behaviour. -/
theorem replenish_refetch_failure_mutates :
    updateLowStockProducts [⟨1, "Widget", 5, 5⟩] 10 none none
        (some "database connection lost") =
      ([⟨1, "Widget", 5, 15⟩],
       ⟨false, "Error updating low-stock products: database connection lost",
        0, []⟩) := by
  rfl

/-- C6: the mutation is not idempotent.  If row i has stock s < 10 and
s + k < 10 with k > 0, two successive invocations leave that row's stock
at s + 2k: it is incremented by k on each run. -/
theorem replenish_twice_increments_twice (store : List Product) (k : Int)
    (i : Nat) (hi : i < store.length) (_hk : 0 < k)
    (hlow : (store.get ⟨i, hi⟩).stock < 10)
    (hlow2 : (store.get ⟨i, hi⟩).stock + k < 10)
    (hi2 : i < (afterTwoRuns store k).length) :
    ((afterTwoRuns store k).get ⟨i, hi2⟩).stock =
      (store.get ⟨i, hi⟩).stock + 2 * k := by
  have hmem : store.get ⟨i, hi⟩ ∈ store.filter isLowStock :=
    List.mem_filter.mpr ⟨store.get_mem _ _,
      by simpa [isLowStock, List.get_eq_getElem] using hlow⟩
  have hne : store.filter isLowStock ≠ [] := by
    intro hc; rw [hc] at hmem; exact List.not_mem_nil _ hmem
  have h1 : (updateLowStockProducts store k none none none).1 =
      store.map (incrementStock k) := by
    rw [updateLowStock_success_eq store k hne]
  have hi1 : i < (store.map (incrementStock k)).length := by
    simpa using hi
  have hget1 : (store.map (incrementStock k)).get ⟨i, hi1⟩ =
      incrementStock k (store.get ⟨i, hi⟩) := by
    simp [List.get_eq_getElem]
  have hstock1 : ((store.map (incrementStock k)).get ⟨i, hi1⟩).stock =
      (store.get ⟨i, hi⟩).stock + k := by
    rw [hget1]
    unfold incrementStock
    rw [if_pos hlow]
  have hmem1 : (store.map (incrementStock k)).get ⟨i, hi1⟩ ∈
      (store.map (incrementStock k)).filter isLowStock := by
    refine List.mem_filter.mpr ⟨List.get_mem _ _ _, ?_⟩
    simp only [isLowStock, decide_eq_true_eq, hstock1]
    exact hlow2
  have hne1 : (store.map (incrementStock k)).filter isLowStock ≠ [] := by
    intro hc; rw [hc] at hmem1; exact List.not_mem_nil _ hmem1
  have h2 : afterTwoRuns store k =
      (store.map (incrementStock k)).map (incrementStock k) := by
    unfold afterTwoRuns
    rw [h1, updateLowStock_success_eq _ k hne1]
  have hi2' : i < ((store.map (incrementStock k)).map
      (incrementStock k)).length := by simpa using hi
  have : ((afterTwoRuns store k).get ⟨i, hi2⟩).stock =
      (incrementStock k ((store.map (incrementStock k)).get ⟨i, hi1⟩)).stock := by
    congr 1
    rw [List.get_eq_getElem, List.get_eq_getElem]
    simp only [h2, List.getElem_map]
  rw [this, hget1]
  have e1 : incrementStock k (store.get ⟨i, hi⟩) =
      { store.get ⟨i, hi⟩ with stock := (store.get ⟨i, hi⟩).stock + k } := by
    unfold incrementStock
    rw [if_pos hlow]
  rw [e1]
  have e2 : incrementStock k
      { store.get ⟨i, hi⟩ with stock := (store.get ⟨i, hi⟩).stock + k } =
      { store.get ⟨i, hi⟩ with stock := (store.get ⟨i, hi⟩).stock + k + k } := by
    unfold incrementStock
    rw [if_pos hlow2]
  rw [e2]
  show (store.get ⟨i, hi⟩).stock + k + k = (store.get ⟨i, hi⟩).stock + 2 * k
  ring

theorem replenish_twice_witness :
    ((0 : Int) < 3 ∧
      (([(⟨1, "A", 5, 2⟩ : Product)]).get ⟨0, by decide⟩).stock < 10 ∧
      (([(⟨1, "A", 5, 2⟩ : Product)]).get ⟨0, by decide⟩).stock + 3 < 10) ∧
    ((afterTwoRuns [⟨1, "A", 5, 2⟩] 3).get ⟨0, by decide⟩).stock = 8 := by
  have h := replenish_twice_increments_twice [⟨1, "A", 5, 2⟩] 3 0 (by decide)
    (by decide) (by decide) (by decide) (by decide)
  refine ⟨⟨by decide, by decide, by decide⟩, ?_⟩
  exact h.trans (by decide)

/-!  Lemmas about the bulk customer-creation loop. -/

lemma bulkStep_clean (ve : String → Bool) (st : BulkState) (idx : Nat)
    (input : CustomerInput)
    (hinv : ∀ c ∈ st.created, c ∈ st.store)
    (hc : cleanInput ve st.store input = true) :
    bulkStep ve st idx input =
      { store := st.store ++ [mkCustomer input],
        created := st.created ++ [mkCustomer input],
        errors := st.errors } := by
  simp only [cleanInput, Bool.and_eq_true, Bool.not_eq_true',
    decide_eq_false_iff_not] at hc
  obtain ⟨⟨⟨h1, h2⟩, h3⟩, h5⟩ := hc
  have h4 : st.created.any (fun c => c.email == input.email) = false := by
    rcases Bool.eq_false_or_eq_true
        (st.created.any (fun c => c.email == input.email)) with h | h
    · exfalso
      rcases List.any_eq_true.mp h with ⟨c, hcmem, hce⟩
      have hs : st.store.any (fun c => c.email == input.email) = true :=
        List.any_eq_true.mpr ⟨c, hinv c hcmem, hce⟩
      rw [h3] at hs
      exact Bool.false_ne_true hs
    · exact h
  unfold bulkStep
  rw [if_neg h1, if_neg (by simp [h2]), if_neg (by simp [h3]),
    if_neg (by simp [h4]), if_neg (by simp [h5])]

lemma bulkStep_dup (ve : String → Bool) (st : BulkState) (idx : Nat)
    (input : CustomerInput)
    (hname : ¬ pyStrip input.name = "")
    (hemail : ve input.email = true)
    (hdup : st.store.any (fun c => c.email == input.email) = true) :
    bulkStep ve st idx input =
      { st with errors := st.errors ++
          [ErrEntry.mk ("inputs[" ++ toString idx ++ "].email")
            "Email already exists"] } := by
  unfold bulkStep
  rw [if_neg hname, if_neg (by simp [hemail]), if_pos (by simp [hdup])]

lemma bulkCreateLoop_clean (ve : String → Bool) (l : List CustomerInput) :
    ∀ (st : BulkState) (idx : Nat) (rest : List CustomerInput),
      (∀ c ∈ st.created, c ∈ st.store) →
      cleanList ve st.store l = true →
      bulkCreateLoop ve st idx (l ++ rest) =
        bulkCreateLoop ve
          ⟨st.store ++ l.map mkCustomer, st.created ++ l.map mkCustomer,
            st.errors⟩
          (idx + l.length) rest := by
  induction l with
  | nil =>
      intro st idx rest _ _
      simp [bulkCreateLoop]
  | cons a as ih =>
      intro st idx rest hinv hcl
      simp only [cleanList, Bool.and_eq_true] at hcl
      obtain ⟨hca, hcas⟩ := hcl
      have hstep := bulkStep_clean ve st idx a hinv hca
      rw [List.cons_append]
      simp only [bulkCreateLoop]
      rw [hstep]
      have hinv' : ∀ c ∈ st.created ++ [mkCustomer a],
          c ∈ st.store ++ [mkCustomer a] := by
        intro c hc
        rcases List.mem_append.mp hc with h | h
        · exact List.mem_append_left _ (hinv c h)
        · exact List.mem_append_right _ h
      rw [ih ⟨st.store ++ [mkCustomer a], st.created ++ [mkCustomer a],
            st.errors⟩ (idx + 1) rest hinv' hcas]
      have hst : (st.store ++ [mkCustomer a]) ++ as.map mkCustomer =
          st.store ++ (a :: as).map mkCustomer := by
        simp
      have hcr : (st.created ++ [mkCustomer a]) ++ as.map mkCustomer =
          st.created ++ (a :: as).map mkCustomer := by
        simp
      have hidx : idx + 1 + as.length = idx + (a :: as).length := by
        simp only [List.length_cons]
        omega
      rw [hst, hcr, hidx]

lemma bulkCreateLoop_clean_all (ve : String → Bool) (l : List CustomerInput)
    (st : BulkState) (idx : Nat)
    (hinv : ∀ c ∈ st.created, c ∈ st.store)
    (hcl : cleanList ve st.store l = true) :
    bulkCreateLoop ve st idx l =
      ⟨st.store ++ l.map mkCustomer, st.created ++ l.map mkCustomer,
        st.errors⟩ := by
  have h := bulkCreateLoop_clean ve l st idx [] hinv hcl
  rw [List.append_nil] at h
  simpa [bulkCreateLoop] using h

/-- C7: bulk customer creation continues past an individual failure.  For
a batch of five inputs in which the four inputs around position
`as.length` are valid and the input `d` at that position has an email
already present in the customer table, exactly the four valid customers
are created and exactly one error entry is returned, whose field names the
failing input's index and the field email. -/
theorem bulk_create_continues_past_duplicate (ve : String → Bool)
    (store : List Customer) (as : List CustomerInput) (d : CustomerInput)
    (bs : List CustomerInput)
    (hlen : as.length + bs.length = 4)
    (hca : cleanList ve store as = true)
    (hdname : ¬ pyStrip d.name = "")
    (hdemail : ve d.email = true)
    (hdup : store.any (fun c => c.email == d.email) = true)
    (hcb : cleanList ve (store ++ as.map mkCustomer) bs = true) :
    (bulkCreateCustomers ve store (as ++ d :: bs)).created =
        as.map mkCustomer ++ bs.map mkCustomer ∧
    (bulkCreateCustomers ve store (as ++ d :: bs)).created.length = 4 ∧
    (bulkCreateCustomers ve store (as ++ d :: bs)).errors =
      [ErrEntry.mk ("inputs[" ++ toString as.length ++ "].email")
        "Email already exists"] := by
  have hdup' : (store ++ as.map mkCustomer).any
      (fun c => c.email == d.email) = true := by
    rcases List.any_eq_true.mp hdup with ⟨c, hc, hce⟩
    exact List.any_eq_true.mpr ⟨c, List.mem_append_left _ hc, hce⟩
  unfold bulkCreateCustomers
  rw [bulkCreateLoop_clean ve as ⟨store, [], []⟩ 0 (d :: bs)
    (by intro c hc; simp at hc) hca]
  simp only [bulkCreateLoop]
  rw [bulkStep_dup ve ⟨store ++ as.map mkCustomer, [] ++ as.map mkCustomer, []⟩
    (0 + as.length) d hdname hdemail hdup']
  rw [bulkCreateLoop_clean_all ve bs
    ⟨store ++ as.map mkCustomer, [] ++ as.map mkCustomer,
      [] ++ [ErrEntry.mk ("inputs[" ++ toString (0 + as.length) ++ "].email")
        "Email already exists"]⟩
    (0 + as.length + 1)
    (by intro c hc; simp only [List.nil_append] at hc
        exact List.mem_append_right _ hc)
    hcb]
  refine ⟨by simp, ?_, by simp⟩
  simp only [List.nil_append, List.length_append, List.length_map]
  omega

theorem bulk_create_duplicate_witness :
    (([(⟨"A1", "a1@x.com", none⟩ : CustomerInput),
        ⟨"A2", "a2@x.com", none⟩]).length +
      ([(⟨"B1", "b1@x.com", none⟩ : CustomerInput),
        ⟨"B2", "b2@x.com", none⟩]).length = 4 ∧
      cleanList (fun s => s.data.contains '@') [⟨"Bob", "bob@x.com", none⟩]
        [⟨"A1", "a1@x.com", none⟩, ⟨"A2", "a2@x.com", none⟩] = true ∧
      ¬ pyStrip "D" = "" ∧
      (fun s => s.data.contains '@') "bob@x.com" = true ∧
      ([(⟨"Bob", "bob@x.com", none⟩ : Customer)]).any
        (fun c => c.email == "bob@x.com") = true) ∧
    (bulkCreateCustomers (fun s => s.data.contains '@')
        [⟨"Bob", "bob@x.com", none⟩]
        [⟨"A1", "a1@x.com", none⟩, ⟨"A2", "a2@x.com", none⟩,
          ⟨"D", "bob@x.com", none⟩,
          ⟨"B1", "b1@x.com", none⟩, ⟨"B2", "b2@x.com", none⟩]).created.length
      = 4 ∧
    (bulkCreateCustomers (fun s => s.data.contains '@')
        [⟨"Bob", "bob@x.com", none⟩]
        [⟨"A1", "a1@x.com", none⟩, ⟨"A2", "a2@x.com", none⟩,
          ⟨"D", "bob@x.com", none⟩,
          ⟨"B1", "b1@x.com", none⟩, ⟨"B2", "b2@x.com", none⟩]).errors =
      [ErrEntry.mk "inputs[2].email" "Email already exists"] := by
  have h := bulk_create_continues_past_duplicate (fun s => s.data.contains '@')
    [⟨"Bob", "bob@x.com", none⟩]
    [⟨"A1", "a1@x.com", none⟩, ⟨"A2", "a2@x.com", none⟩]
    ⟨"D", "bob@x.com", none⟩
    [⟨"B1", "b1@x.com", none⟩, ⟨"B2", "b2@x.com", none⟩]
    (by decide) (by decide) (by decide) (by decide) (by decide) (by decide)
  exact ⟨⟨by decide, by decide, by decide, by decide, by decide⟩,
    h.2.1, h.2.2⟩

/-!  Lemmas about which customers the bulk loop creates. -/

lemma bulkStep_created_cases (ve : String → Bool) (st : BulkState)
    (idx : Nat) (input : CustomerInput) :
    (bulkStep ve st idx input).created = st.created ∨
      (bulkStep ve st idx input).created = st.created ++ [mkCustomer input] := by
  unfold bulkStep
  split_ifs <;> simp

lemma bulkCreateLoop_created_mem (ve : String → Bool)
    (l : List CustomerInput) :
    ∀ (st : BulkState) (idx : Nat) (c : Customer),
      c ∈ (bulkCreateLoop ve st idx l).created →
        c ∈ st.created ∨ ∃ input ∈ l, c = mkCustomer input := by
  induction l with
  | nil =>
      intro st idx c hc
      exact Or.inl hc
  | cons a as ih =>
      intro st idx c hc
      simp only [bulkCreateLoop] at hc
      rcases ih _ _ _ hc with h | ⟨inp, hinp, heq⟩
      · rcases bulkStep_created_cases ve st idx a with he | he
        · rw [he] at h
          exact Or.inl h
        · rw [he] at h
          rcases List.mem_append.mp h with h' | h'
          · exact Or.inl h'
          · exact Or.inr ⟨a, List.mem_cons_self _ _, by simpa using h'⟩
      · exact Or.inr ⟨inp, List.mem_cons_of_mem _ hinp, heq⟩

/-- C10: every customer created by the single or the bulk creation
mutation is stored and returned with the email lower-cased and the name
stripped of surrounding whitespace; the single mutation appends exactly
that normalized customer to the table and returns it. -/
theorem customer_normalization :
    (∀ (ve : String → Bool) (store : List Customer) (input : CustomerInput)
        (st' : List Customer) (c : Customer) (errs : List ErrEntry),
      createCustomer ve store input = (st', some c, errs) →
        c.name = pyStrip input.name ∧ c.email = pyLower input.email ∧
          st' = store ++ [c]) ∧
    (∀ (ve : String → Bool) (store : List Customer)
        (inputs : List CustomerInput) (c : Customer),
      c ∈ (bulkCreateCustomers ve store inputs).created →
        ∃ input ∈ inputs, c.name = pyStrip input.name ∧
          c.email = pyLower input.email) := by
  constructor
  · intro ve store input st' c errs h
    unfold createCustomer at h
    split at h
    · have h1 : store ++ [mkCustomer input] = st' := congrArg Prod.fst h
      have h2 : mkCustomer input = c :=
        Option.some.inj (congrArg (fun x => x.2.1) h)
      subst h2
      exact ⟨rfl, rfl, h1.symm⟩
    · exact absurd (congrArg (fun x => x.2.1) h) (by simp)
  · intro ve store inputs c hc
    rcases bulkCreateLoop_created_mem ve inputs ⟨store, [], []⟩ 0 c hc with
      h | ⟨input, hinp, heq⟩
    · simp at h
    · exact ⟨input, hinp, by rw [heq]; exact ⟨rfl, rfl⟩⟩

theorem customer_normalization_witness :
    createCustomer (fun s => s.data.contains '@') []
        ⟨"  Alice  ", "Alice@Example.COM", none⟩ =
      ([⟨"Alice", "alice@example.com", none⟩],
        some ⟨"Alice", "alice@example.com", none⟩, []) ∧
    (⟨"Alice", "alice@example.com", none⟩ : Customer).name =
      pyStrip "  Alice  " ∧
    (⟨"Alice", "alice@example.com", none⟩ : Customer).email =
      pyLower "Alice@Example.COM" := by
  have h := customer_normalization.1 (fun s => s.data.contains '@') []
    ⟨"  Alice  ", "Alice@Example.COM", none⟩
    [⟨"Alice", "alice@example.com", none⟩]
    ⟨"Alice", "alice@example.com", none⟩ [] (by decide)
  exact ⟨by decide, h.1, h.2.1⟩

/-- C8: every operation that touches an item's stock preserves
non-negativity.  Product creation returns only products with stock at
least 0 and rejects a negative requested stock outright; the order
placement loop decrements by one only rows whose fetched snapshot had
positive stock and so writes back only non-negative values; the
replenishment mutation under its precondition incrementBy greater than 0
only raises stocks. -/
theorem stock_invariant_preserved :
    (∀ (store : List Product) (pk : Nat) (input : ProductInput)
        (st' : List Product) (p : Product) (errs : List ErrEntry),
      createProduct store pk input = (st', some p, errs) → 0 ≤ p.stock) ∧
    (∀ (store : List Product) (pk : Nat) (input : ProductInput) (s : Int),
      input.stock = some s → s < 0 →
        (createProduct store pk input).2.1 = none) ∧
    (∀ (store orderProducts : List Product),
      (∀ q ∈ store, 0 ≤ q.stock) →
        ∀ q ∈ createOrderDecrementStock store orderProducts, 0 ≤ q.stock) ∧
    (∀ (store : List Product) (k : Int) (sf uf rf : Option String),
      0 < k → (∀ q ∈ store, 0 ≤ q.stock) →
        ∀ q ∈ (updateLowStockProducts store k sf uf rf).1, 0 ≤ q.stock) := by
  refine ⟨?_, ?_, ?_, ?_⟩
  · intro store pk input st' p errs h
    unfold createProduct at h
    split at h
    next hcond =>
      have hp : ({ id := pk
                   name := pyStrip input.name
                   price := input.price
                   stock := (input.stock).getD 0 } : Product) = p :=
        Option.some.inj (congrArg (fun x => x.2.1) h)
      rw [← hp]
      show 0 ≤ (input.stock).getD 0
      unfold createProductErrors at hcond
      rcases List.append_eq_nil.mp hcond with ⟨_, hC⟩
      cases hstock : input.stock with
      | none => simp
      | some s =>
          rw [hstock] at hC
          simp only [hstock, Option.getD_some]
          simp at hC
          omega
    next =>
      exact absurd (congrArg (fun x => x.2.1) h) (by simp)
  · intro store pk input s hs hneg
    have hne : ¬ createProductErrors input = [] := by
      intro hc
      unfold createProductErrors at hc
      rcases List.append_eq_nil.mp hc with ⟨_, hC⟩
      rw [hs] at hC
      simp [hneg] at hC
    unfold createProduct
    rw [if_neg hne]
  · intro store ops
    induction ops generalizing store with
    | nil =>
        intro hnn q hq
        exact hnn q hq
    | cons p ps ih =>
        intro hnn q hq
        have hstep : ∀ r ∈ (if p.stock > 0 then
            saveStock store p.id (p.stock - 1) else store), 0 ≤ r.stock := by
          split
          next hp =>
            intro r hr
            unfold saveStock at hr
            rcases List.mem_map.mp hr with ⟨r0, hr0, hr0q⟩
            rw [← hr0q]
            split
            · show (0 : Int) ≤ p.stock - 1
              omega
            · exact hnn r0 hr0
          next => exact hnn
        have hrw : createOrderDecrementStock store (p :: ps) =
            createOrderDecrementStock
              (if p.stock > 0 then saveStock store p.id (p.stock - 1)
               else store) ps := rfl
        rw [hrw] at hq
        exact ih _ hstep q hq
  · intro store k sf uf rf hk hnn q hq
    rcases updateLowStock_fst_cases store k sf uf rf with h | h
    · rw [h] at hq
      exact hnn q hq
    · rw [h] at hq
      rcases List.mem_map.mp hq with ⟨r, hr, hrq⟩
      rw [← hrq]
      unfold incrementStock
      split
      · show (0 : Int) ≤ r.stock + k
        have := hnn r hr
        omega
      · exact hnn r hr

theorem stock_invariant_witness :
    createProduct [] 1 ⟨"Widget", 5, some 7⟩ =
      ([⟨1, "Widget", 5, 7⟩], some ⟨1, "Widget", 5, 7⟩, []) ∧
    (0 : Int) ≤ (⟨1, "Widget", 5, 7⟩ : Product).stock := by
  exact ⟨by decide,
    stock_invariant_preserved.1 [] 1 ⟨"Widget", 5, some 7⟩
      [⟨1, "Widget", 5, 7⟩] ⟨1, "Widget", 5, 7⟩ [] (by decide)⟩

/-- C9 counterexample: on a failure of the weekly report task (here an
unreachable data source) the task appends the timestamped error line but
then re-raises through `self.retry(exc=e, countdown=300)` — it does not
return normally, contrary to the claim that it does not raise. -/
theorem report_failure_raises_retry :
    (generate_crm_report "2026-01-01 00:00:00"
        (Except.error "connection refused")).raisedRetry = true := by
  rfl

/-- C9 (amended): on failure the weekly report task appends exactly one
timestamped error line and re-raises through its retry mechanism; on
success it appends exactly one line of the form
"timestamp - Report: N customers, M orders, R revenue" and returns
normally. -/
theorem report_log_behavior :
    (∀ ts e : String,
      generate_crm_report ts (Except.error e) =
        ⟨[ts ++ " - ERROR generating CRM report: " ++ e], true⟩) ∧
    (∀ (ts : String) (n : Nat) (amounts : List (Option Nat)),
      generate_crm_report ts (Except.ok (n, amounts)) =
        ⟨[ts ++ " - Report: " ++ toString n ++ " customers, " ++
            toString amounts.length ++ " orders, " ++
            fmtCents (amounts.foldl (fun acc a => acc + a.getD 0) 0) ++
            " revenue"], false⟩) :=
  ⟨fun _ _ => rfl, fun _ _ _ => rfl⟩
